import Mathlib

/-!
Verification of the todo-app client (`src/app/page.tsx`) against its
specification. The data model follows `src/types/todo.ts` together with the
remote table schema: a row of the `todos` table carries `id`, `text`,
`completed`, `priority`, `delete_flag`, `created_at`, `updated_at`.

The four controller operations of `page.tsx` (`fetchTodos`, `addTodo`,
`toggleTodo`, `deleteTodo`) are embedded as pure state transformers over a
`World` (remote table plus client state). Each operation takes a `Bool`
outcome flag for the remote call it issues (the code branches on `error`),
and returns the new world together with the observable `Effects`: the remote
calls issued, the console error logs, and the blocking `alert` messages.
-/

namespace TodoApp

/-- Priority of a todo, from `src/types/todo.ts`: `low | medium | high`. -/
inductive TodoPriority where
  | low
  | medium
  | high
deriving DecidableEq

/-- A row of the remote `todos` table. Timestamps are modelled as `Nat`. -/
structure Row where
  id : Nat
  text : String
  completed : Bool
  priority : TodoPriority
  delete_flag : Bool
  created_at : Nat
  updated_at : Nat
deriving DecidableEq

/-- The client-side React state of `page.tsx`: the `todos` list, the
`inputText` field and the selected `priority`. -/
structure ClientState where
  todos : List Row
  inputText : String
  priority : TodoPriority
deriving DecidableEq

/-- The whole system state: the remote table and the client state. -/
structure World where
  remote : List Row
  client : ClientState
deriving DecidableEq

/-- Observable side effects of one controller operation: remote calls
issued, `console.error` messages, and blocking `alert` messages. -/
structure Effects where
  remoteCalls : List String
  consoleErrors : List String
  alerts : List String
deriving DecidableEq

/-- The empty effect record: no remote call, no log, no alert. -/
def noEffects : Effects := ⟨[], [], []⟩

/-- JavaScript `String.prototype.trim`, used by `addTodo`'s guard
`if (!inputText.trim()) return`: removes leading and trailing whitespace. -/
def jsTrim (s : String) : String :=
  String.mk (((s.data.dropWhile Char.isWhitespace).reverse.dropWhile Char.isWhitespace).reverse)

/-- Insert a row into a list that is sorted by `created_at` descending,
keeping it sorted. -/
def insertDesc (r : Row) : List Row → List Row
  | [] => [r]
  | x :: xs => if r.created_at ≤ x.created_at then x :: insertDesc r xs else r :: x :: xs

/-- Sort a list of rows by `created_at` descending (insertion sort). -/
def sortByCreatedAtDesc : List Row → List Row
  | [] => []
  | x :: xs => insertDesc x (sortByCreatedAtDesc xs)

/-- Modelled from the spec: the remote store's answer to the query issued by
`fetchTodos` — `select * ... eq(delete_flag, false) ... order(created_at,
descending)` — is the rows with `delete_flag = false` ordered by
`created_at` descending (`listActive` in the spec). The query-builder
semantics live in the hosted backend, not in `src/`. -/
def listActive (remote : List Row) : List Row :=
  sortByCreatedAtDesc (remote.filter (fun r => r.delete_flag == false))

/-- Modelled from the spec: the remote effect of `update({completed, updated_at}).eq(id, i)`
(the spec's `setCompleted`) — every row whose `id` matches is updated,
rows with no matching `id` are untouched (no-op when `id` is absent). -/
def setCompletedRemote (i : Nat) (value : Bool) (now : Nat) (remote : List Row) : List Row :=
  remote.map (fun r => if r.id = i then { r with completed := value, updated_at := now } else r)

/-- Modelled from the spec: the remote effect of
`update({delete_flag: true, updated_at}).eq(id, i)` (the spec's
`softDelete`) — matching rows get `delete_flag := true` and a new
`updated_at`; no row is removed. -/
def softDeleteRemote (i : Nat) (now : Nat) (remote : List Row) : List Row :=
  remote.map (fun r => if r.id = i then { r with delete_flag := true, updated_at := now } else r)

/-- `fetchTodos` from `page.tsx`: queries the active rows; on success
replaces the local list with the result, on failure logs and alerts,
leaving local state untouched. `ok` is the outcome of the remote call. -/
def fetchTodos (ok : Bool) (w : World) : World × Effects :=
  if ok then
    ({ w with client := { w.client with todos := listActive w.remote } },
     { remoteCalls := ["select todos"], consoleErrors := [], alerts := [] })
  else
    (w, { remoteCalls := ["select todos"],
          consoleErrors := ["获取任务失败"],
          alerts := ["获取任务失败，请检查网络连接"] })

/-- `addTodo` from `page.tsx`: returns unchanged with no effects when the
trimmed input is empty; otherwise inserts one row built from the raw
`inputText` and the selected `priority` (with `completed := false`,
`delete_flag := false`, `updated_at := now`; `id` and `created_at` are
server-assigned, passed here as `newId`/`createdAt`). On success the
returned row is prepended to the local list and the input field cleared; on
failure the state is untouched and the user is alerted. -/
def addTodo (now newId createdAt : Nat) (ok : Bool) (w : World) : World × Effects :=
  if jsTrim w.client.inputText = "" then (w, noEffects)
  else if ok then
    let row : Row :=
      { id := newId, text := w.client.inputText, completed := false,
        priority := w.client.priority, delete_flag := false,
        created_at := createdAt, updated_at := now }
    ({ remote := w.remote ++ [row],
       client := { todos := row :: w.client.todos, inputText := "",
                   priority := w.client.priority } },
     { remoteCalls := ["insert todos"], consoleErrors := [], alerts := [] })
  else
    (w, { remoteCalls := ["insert todos"],
          consoleErrors := ["添加任务失败"],
          alerts := ["添加失败，请重试"] })

/-- `toggleTodo` from `page.tsx`: updates `completed := !currentCompleted`
and `updated_at := now` on the rows matching `i`; on success it re-runs
`fetchTodos` (outcome `okReload`); on failure it only logs (no alert). -/
def toggleTodo (i : Nat) (currentCompleted : Bool) (now : Nat) (ok okReload : Bool)
    (w : World) : World × Effects :=
  if ok then
    let w2 : World := { w with remote := setCompletedRemote i (!currentCompleted) now w.remote }
    let res := fetchTodos okReload w2
    (res.1, { res.2 with remoteCalls := "update todos" :: res.2.remoteCalls })
  else
    (w, { remoteCalls := ["update todos"],
          consoleErrors := ["更新任务失败"], alerts := [] })

/-- `deleteTodo` from `page.tsx`: soft delete — updates
`delete_flag := true` and `updated_at := now` on the rows matching `i`; on
success it re-runs `fetchTodos` (outcome `okReload`); on failure it only
logs (no alert). -/
def deleteTodo (i : Nat) (now : Nat) (ok okReload : Bool) (w : World) : World × Effects :=
  if ok then
    let w2 : World := { w with remote := softDeleteRemote i now w.remote }
    let res := fetchTodos okReload w2
    (res.1, { res.2 with remoteCalls := "update todos" :: res.2.remoteCalls })
  else
    (w, { remoteCalls := ["update todos"],
          consoleErrors := ["删除任务失败"], alerts := [] })

/-! ### Lemmas about the descending insertion sort -/

theorem mem_insertDesc {x r : Row} {l : List Row} :
    x ∈ insertDesc r l ↔ x = r ∨ x ∈ l := by
  induction l with
  | nil => simp [insertDesc]
  | cons y ys ih =>
    by_cases h : r.created_at ≤ y.created_at
    · simp only [insertDesc, if_pos h, List.mem_cons, ih]
      tauto
    · simp only [insertDesc, if_neg h, List.mem_cons]

theorem mem_sortByCreatedAtDesc {x : Row} {l : List Row} :
    x ∈ sortByCreatedAtDesc l ↔ x ∈ l := by
  induction l with
  | nil => simp [sortByCreatedAtDesc]
  | cons y ys ih => simp [sortByCreatedAtDesc, mem_insertDesc, ih]

theorem pairwise_insertDesc {r : Row} {l : List Row}
    (h : l.Pairwise (fun a b => b.created_at ≤ a.created_at)) :
    (insertDesc r l).Pairwise (fun a b => b.created_at ≤ a.created_at) := by
  induction l with
  | nil => simp [insertDesc]
  | cons y ys ih =>
    rw [List.pairwise_cons] at h
    by_cases hc : r.created_at ≤ y.created_at
    · simp only [insertDesc, if_pos hc]
      rw [List.pairwise_cons]
      refine ⟨?_, ih h.2⟩
      intro b hb
      rcases mem_insertDesc.mp hb with hb | hb
      · subst hb; exact hc
      · exact h.1 b hb
    · simp only [insertDesc, if_neg hc]
      rw [List.pairwise_cons]
      push_neg at hc
      refine ⟨?_, List.pairwise_cons.mpr h⟩
      intro b hb
      rcases List.mem_cons.mp hb with hb | hb
      · subst hb; exact le_of_lt hc
      · exact le_trans (h.1 b hb) (le_of_lt hc)

theorem pairwise_sortByCreatedAtDesc (l : List Row) :
    (sortByCreatedAtDesc l).Pairwise (fun a b => b.created_at ≤ a.created_at) := by
  induction l with
  | nil => simp [sortByCreatedAtDesc]
  | cons y ys ih => exact pairwise_insertDesc ih

theorem mem_listActive {x : Row} {remote : List Row} :
    x ∈ listActive remote ↔ x ∈ remote ∧ x.delete_flag = false := by
  simp [listActive, mem_sortByCreatedAtDesc, List.mem_filter]

theorem fetchTodos_ok_todos (w : World) :
    (fetchTodos true w).1.client.todos = listActive w.remote := rfl

/-! ### Concrete rows and worlds used by the witnesses -/

def rowA : Row :=
  { id := 1, text := "a", completed := false, priority := .medium,
    delete_flag := false, created_at := 5, updated_at := 5 }

def rowB : Row :=
  { id := 2, text := "b", completed := true, priority := .high,
    delete_flag := false, created_at := 9, updated_at := 9 }

def rowD : Row :=
  { id := 3, text := "c", completed := false, priority := .low,
    delete_flag := true, created_at := 7, updated_at := 7 }

def clientEx : ClientState := { todos := [rowB, rowA], inputText := "", priority := .medium }

def worldEx : World := { remote := [rowA, rowD, rowB], client := clientEx }

/-! ### The claims -/

/-- C1: every row in the list installed by a successful `fetchTodos` has
`delete_flag = false`; no returned row ever has `delete_flag = true`. -/
theorem fetchTodos_no_deleted (w : World) (r : Row)
    (h : r ∈ (fetchTodos true w).1.client.todos) : r.delete_flag = false := by
  rw [fetchTodos_ok_todos] at h
  exact (mem_listActive.mp h).2

theorem fetchTodos_no_deleted_witness :
    rowB ∈ (fetchTodos true worldEx).1.client.todos ∧ rowB.delete_flag = false :=
  ⟨by decide, fetchTodos_no_deleted worldEx rowB (by decide)⟩

/-- C2: the list installed by a successful `fetchTodos` is sorted by
`created_at` descending: a row at a later position never has a strictly
larger `created_at` than a row at an earlier position. -/
theorem fetchTodos_sorted_desc (w : World)
    (i j : Fin (fetchTodos true w).1.client.todos.length) (hij : (i : Nat) < (j : Nat)) :
    ((fetchTodos true w).1.client.todos.get j).created_at
      ≤ ((fetchTodos true w).1.client.todos.get i).created_at := by
  have hp : ((fetchTodos true w).1.client.todos).Pairwise
      (fun a b => b.created_at ≤ a.created_at) := by
    rw [fetchTodos_ok_todos]
    exact pairwise_sortByCreatedAtDesc _
  exact List.pairwise_iff_get.mp hp i j hij

theorem fetchTodos_sorted_desc_witness :
    ((fetchTodos true worldEx).1.client.todos.get ⟨1, by decide⟩).created_at
      ≤ ((fetchTodos true worldEx).1.client.todos.get ⟨0, by decide⟩).created_at :=
  fetchTodos_sorted_desc worldEx ⟨0, by decide⟩ ⟨1, by decide⟩ (by decide)

def clientInput : ClientState :=
  { todos := [rowB, rowA], inputText := " buy milk ", priority := .high }

def worldInput : World := { remote := [rowA, rowB], client := clientInput }

def clientBlank : ClientState := { todos := [rowA], inputText := "   ", priority := .low }

def worldBlank : World := { remote := [rowA], client := clientBlank }

/-- C3: with non-blank input and a successful remote call, `addTodo`
appends exactly one row to the remote table, with `completed = false`,
`delete_flag = false`, `updated_at = now`, the selected priority and the
raw input text; it prepends that row to the local list and clears the
input field. -/
theorem addTodo_inserts (now newId createdAt : Nat) (w : World)
    (h : jsTrim w.client.inputText ≠ "") :
    ∃ row : Row,
      (addTodo now newId createdAt true w).1.remote = w.remote ++ [row] ∧
      row.completed = false ∧ row.delete_flag = false ∧ row.updated_at = now ∧
      row.priority = w.client.priority ∧ row.text = w.client.inputText ∧
      (addTodo now newId createdAt true w).1.client.todos = row :: w.client.todos ∧
      (addTodo now newId createdAt true w).1.client.inputText = "" := by
  refine ⟨{ id := newId, text := w.client.inputText, completed := false,
            priority := w.client.priority, delete_flag := false,
            created_at := createdAt, updated_at := now }, ?_⟩
  simp [addTodo, h]

theorem addTodo_inserts_witness :
    ∃ row : Row,
      (addTodo 100 7 50 true worldInput).1.remote = worldInput.remote ++ [row] ∧
      row.completed = false ∧ row.delete_flag = false ∧ row.updated_at = 100 ∧
      row.priority = worldInput.client.priority ∧ row.text = worldInput.client.inputText ∧
      (addTodo 100 7 50 true worldInput).1.client.todos = row :: worldInput.client.todos ∧
      (addTodo 100 7 50 true worldInput).1.client.inputText = "" :=
  addTodo_inserts 100 7 50 worldInput (by decide)

/-- C4: with blank (empty or whitespace-only) input, `addTodo` issues no
remote call and leaves the whole state — todo list, input field, priority
and remote table — unchanged, with no log and no alert. -/
theorem addTodo_blank_noop (now newId createdAt : Nat) (ok : Bool) (w : World)
    (h : jsTrim w.client.inputText = "") :
    addTodo now newId createdAt ok w = (w, noEffects) := by
  simp [addTodo, h]

theorem addTodo_blank_noop_witness :
    addTodo 100 7 50 true worldBlank = (worldBlank, noEffects) :=
  addTodo_blank_noop 100 7 50 true worldBlank (by decide)

/-- C9: `addTodo` stores the raw input verbatim: the inserted row's `text`
equals the untrimmed input, and differs from the trimmed form whenever
trimming changes the input. -/
theorem addTodo_text_verbatim (now newId createdAt : Nat) (w : World)
    (h : jsTrim w.client.inputText ≠ "") :
    ∃ row : Row,
      (addTodo now newId createdAt true w).1.client.todos = row :: w.client.todos ∧
      row.text = w.client.inputText ∧
      (jsTrim w.client.inputText ≠ w.client.inputText →
        row.text ≠ jsTrim w.client.inputText) := by
  refine ⟨{ id := newId, text := w.client.inputText, completed := false,
            priority := w.client.priority, delete_flag := false,
            created_at := createdAt, updated_at := now }, ?_, rfl, ?_⟩
  · simp [addTodo, h]
  · intro hne heq
    exact hne (heq ▸ rfl)

theorem addTodo_text_verbatim_witness :
    ∃ row : Row,
      (addTodo 100 7 50 true worldInput).1.client.todos = row :: worldInput.client.todos ∧
      row.text = worldInput.client.inputText ∧
      (jsTrim worldInput.client.inputText ≠ worldInput.client.inputText →
        row.text ≠ jsTrim worldInput.client.inputText) :=
  addTodo_text_verbatim 100 7 50 worldInput (by decide)

/-- C10: after a successful `addTodo`, the selected priority is unchanged
and only the input text field is cleared. -/
theorem addTodo_priority_preserved (now newId createdAt : Nat) (w : World)
    (h : jsTrim w.client.inputText ≠ "") :
    (addTodo now newId createdAt true w).1.client.priority = w.client.priority ∧
    (addTodo now newId createdAt true w).1.client.inputText = "" := by
  simp [addTodo, h]

theorem addTodo_priority_preserved_witness :
    (addTodo 100 7 50 true worldInput).1.client.priority = worldInput.client.priority ∧
    (addTodo 100 7 50 true worldInput).1.client.inputText = "" :=
  addTodo_priority_preserved 100 7 50 worldInput (by decide)

/-! ### Row updates commute with `listActive` when the sort and filter keys
are preserved -/

theorem insertDesc_map {f : Row → Row} (hc : ∀ r, (f r).created_at = r.created_at)
    (r : Row) (l : List Row) :
    insertDesc (f r) (l.map f) = (insertDesc r l).map f := by
  induction l with
  | nil => simp [insertDesc]
  | cons y ys ih =>
    by_cases h : r.created_at ≤ y.created_at
    · have h' : (f r).created_at ≤ (f y).created_at := by rw [hc, hc]; exact h
      simp only [List.map_cons, insertDesc, if_pos h, if_pos h', ih]
    · have h' : ¬(f r).created_at ≤ (f y).created_at := by rw [hc, hc]; exact h
      simp only [List.map_cons, insertDesc, if_neg h, if_neg h']

theorem sortByCreatedAtDesc_map {f : Row → Row}
    (hc : ∀ r, (f r).created_at = r.created_at) (l : List Row) :
    sortByCreatedAtDesc (l.map f) = (sortByCreatedAtDesc l).map f := by
  induction l with
  | nil => simp [sortByCreatedAtDesc]
  | cons y ys ih => simp only [List.map_cons, sortByCreatedAtDesc, ih, insertDesc_map hc]

theorem listActive_map {f : Row → Row} (hc : ∀ r, (f r).created_at = r.created_at)
    (hd : ∀ r, (f r).delete_flag = r.delete_flag) (l : List Row) :
    listActive (l.map f) = (listActive l).map f := by
  unfold listActive
  rw [List.filter_map]
  have : l.filter ((fun r => r.delete_flag == false) ∘ f)
      = l.filter (fun r => r.delete_flag == false) := by
    apply List.filter_congr
    intro r _
    simp [Function.comp, hd]
  rw [this, sortByCreatedAtDesc_map hc]

/-- The per-row effect of `toggleTodo`'s remote update, phrased with the
row's own `completed` value. -/
def toggleUpd (i : Nat) (now : Nat) (r : Row) : Row :=
  if r.id = i then { r with completed := !r.completed, updated_at := now } else r

/-- The per-row effect of `deleteTodo`'s remote update. -/
def softDeleteUpd (i : Nat) (now : Nat) (r : Row) : Row :=
  if r.id = i then { r with delete_flag := true, updated_at := now } else r

theorem toggleUpd_created_at (i now : Nat) (r : Row) :
    (toggleUpd i now r).created_at = r.created_at := by
  unfold toggleUpd; split <;> rfl

theorem toggleUpd_delete_flag (i now : Nat) (r : Row) :
    (toggleUpd i now r).delete_flag = r.delete_flag := by
  unfold toggleUpd; split <;> rfl

def worldToggle : World :=
  { remote := [rowA], client := { todos := [rowA], inputText := "", priority := .medium } }

/-- C5 counterexample: in a store holding only `rowA` (with
`updated_at = 5`), toggling row 1 at time 100 and reloading does not yield
the old row with only `completed` flipped — `updated_at` changed too — so
the toggle does not change "exactly the `completed` field". -/
theorem toggleTodo_not_only_completed :
    (toggleTodo 1 false 100 true true worldToggle).1.client.todos ≠
      [{ rowA with completed := !rowA.completed }] := by decide

/-- C5 amended: when the local `completed` value passed to `toggleTodo`
agrees with the remote rows matching `i`, a successful toggle followed by a
successful reload maps each visible row through `toggleUpd`: the rows
matching `i` get `completed` flipped and `updated_at` set to `now`, and
every other field of those rows and every other row are unchanged. -/
theorem toggleTodo_reload_effect (i : Nat) (c : Bool) (now : Nat) (w : World)
    (hc : ∀ r ∈ w.remote, r.id = i → r.completed = c) :
    (toggleTodo i c now true true w).1.remote = w.remote.map (toggleUpd i now) ∧
    (toggleTodo i c now true true w).1.client.todos =
      (listActive w.remote).map (toggleUpd i now) := by
  have hremote : (toggleTodo i c now true true w).1.remote
      = setCompletedRemote i (!c) now w.remote := rfl
  have htodos : (toggleTodo i c now true true w).1.client.todos
      = listActive (setCompletedRemote i (!c) now w.remote) := rfl
  have hmap : setCompletedRemote i (!c) now w.remote = w.remote.map (toggleUpd i now) := by
    apply List.map_congr_left
    intro r hr
    unfold toggleUpd
    by_cases hid : r.id = i
    · rw [if_pos hid, if_pos hid, hc r hr hid]
    · rw [if_neg hid, if_neg hid]
  refine ⟨hremote.trans hmap, ?_⟩
  rw [htodos, hmap]
  exact listActive_map (toggleUpd_created_at i now) (toggleUpd_delete_flag i now) w.remote

theorem toggleTodo_reload_effect_witness :
    (toggleTodo 1 false 100 true true worldToggle).1.remote
      = worldToggle.remote.map (toggleUpd 1 100) ∧
    (toggleTodo 1 false 100 true true worldToggle).1.client.todos
      = (listActive worldToggle.remote).map (toggleUpd 1 100) :=
  toggleTodo_reload_effect 1 false 100 worldToggle (by decide)

/-- C6: a successful `deleteTodo` followed by a successful reload removes
every row matching `i` from the visible list, while the row still exists in
the remote table with `delete_flag = true`; no row is physically removed
(the table's length is unchanged). -/
theorem deleteTodo_reload_effect (i : Nat) (now : Nat) (w : World) (r : Row)
    (hr : r ∈ w.remote) (hid : r.id = i) :
    (∀ x ∈ (deleteTodo i now true true w).1.client.todos, x.id ≠ i) ∧
    { r with delete_flag := true, updated_at := now } ∈ (deleteTodo i now true true w).1.remote ∧
    (deleteTodo i now true true w).1.remote.length = w.remote.length := by
  have hremote : (deleteTodo i now true true w).1.remote = softDeleteRemote i now w.remote := rfl
  have htodos : (deleteTodo i now true true w).1.client.todos
      = listActive (softDeleteRemote i now w.remote) := rfl
  refine ⟨?_, ?_, ?_⟩
  · intro x hx
    rw [htodos] at hx
    obtain ⟨hmem, hflag⟩ := mem_listActive.mp hx
    obtain ⟨y, _, hy⟩ := List.mem_map.mp hmem
    intro hxi
    by_cases hyi : y.id = i
    · rw [if_pos hyi] at hy
      rw [← hy] at hflag
      exact Bool.true_eq_false.mp hflag
    · rw [if_neg hyi] at hy
      exact hyi (hy ▸ hxi)
  · rw [hremote]
    have := List.mem_map_of_mem
      (fun x => if x.id = i then { x with delete_flag := true, updated_at := now } else x) hr
    simpa [softDeleteRemote, hid] using this
  · rw [hremote]
    exact List.length_map _ _

theorem deleteTodo_reload_effect_witness :
    (∀ x ∈ (deleteTodo 1 100 true true worldEx).1.client.todos, x.id ≠ 1) ∧
    { rowA with delete_flag := true, updated_at := 100 }
      ∈ (deleteTodo 1 100 true true worldEx).1.remote ∧
    (deleteTodo 1 100 true true worldEx).1.remote.length = worldEx.remote.length :=
  deleteTodo_reload_effect 1 100 worldEx rowA (by decide) (by decide)

/-- C7 counterexample: a failing toggle and a failing delete produce no
blocking alert, so not every remote failure is surfaced via a blocking
notification. -/
theorem toggle_delete_failure_no_alert :
    (toggleTodo 1 false 100 false true worldToggle).2.alerts = [] ∧
    (deleteTodo 1 100 false true worldToggle).2.alerts = [] := by decide

/-- C7 amended: every remote failure is caught and logged to the console,
but only fetch and insert failures raise a blocking alert; toggle and
delete failures are logged without any alert. -/
theorem failure_logged_alert_policy (now newId createdAt i : Nat) (c : Bool)
    (okR : Bool) (w : World) (h : jsTrim w.client.inputText ≠ "") :
    ((fetchTodos false w).2.consoleErrors ≠ [] ∧ (fetchTodos false w).2.alerts ≠ []) ∧
    ((addTodo now newId createdAt false w).2.consoleErrors ≠ [] ∧
      (addTodo now newId createdAt false w).2.alerts ≠ []) ∧
    ((toggleTodo i c now false okR w).2.consoleErrors ≠ [] ∧
      (toggleTodo i c now false okR w).2.alerts = []) ∧
    ((deleteTodo i now false okR w).2.consoleErrors ≠ [] ∧
      (deleteTodo i now false okR w).2.alerts = []) := by
  simp [fetchTodos, addTodo, toggleTodo, deleteTodo, h]

theorem failure_logged_alert_policy_witness :
    ((fetchTodos false worldInput).2.consoleErrors ≠ [] ∧
      (fetchTodos false worldInput).2.alerts ≠ []) ∧
    ((addTodo 100 7 50 false worldInput).2.consoleErrors ≠ [] ∧
      (addTodo 100 7 50 false worldInput).2.alerts ≠ []) ∧
    ((toggleTodo 1 false 100 false true worldInput).2.consoleErrors ≠ [] ∧
      (toggleTodo 1 false 100 false true worldInput).2.alerts = []) ∧
    ((deleteTodo 1 100 false true worldInput).2.consoleErrors ≠ [] ∧
      (deleteTodo 1 100 false true worldInput).2.alerts = []) :=
  failure_logged_alert_policy 100 7 50 1 false true worldInput (by decide)

/-- C8: when no remote row has id `i`, both remote updates — the one issued
by `toggleTodo` and the one issued by `deleteTodo` — are no-ops: the table
is unchanged. -/
theorem update_missing_id_noop (i : Nat) (v : Bool) (now : Nat) (remote : List Row)
    (h : ∀ r ∈ remote, r.id ≠ i) :
    setCompletedRemote i v now remote = remote ∧ softDeleteRemote i now remote = remote := by
  constructor <;>
  · refine Eq.trans (List.map_congr_left ?_) (List.map_id _)
    intro r hr
    simp [h r hr]

theorem update_missing_id_noop_witness :
    setCompletedRemote 99 true 100 [rowA, rowB] = [rowA, rowB] ∧
    softDeleteRemote 99 100 [rowA, rowB] = [rowA, rowB] :=
  update_missing_id_noop 99 true 100 [rowA, rowB] (by decide)

end TodoApp
